import Mathlib

/-!
Verification of the autodialer core of `main.py` (FastAPI autodialer & blog app).

The phone-number store is a JSON list of records; every endpoint loads the
whole list, mutates it, and saves it back.  We embed the store as a Lean list
of records and each endpoint as a pure function from the store (plus the
external inputs it reads: the request payload, the Twilio client result, the
current time) to the new store and the HTTP-level response value.

Endpoints embedded (names follow the source):
* `upload_numbers` (the `numbers_text` branch) — ingestion;
* `ai_call` — single dispatch, including the phone-number regex extraction;
* `bulk_call` — bulk dispatch;
* `update_call_status_by_sid` / `call_status_webhook` — webhook reconciler.

The Twilio provider is modelled by a `ProviderResult` value (the outcome of
`twilio_client.calls.create`): either a call SID or an error message.
Timestamps (`datetime.utcnow().isoformat()`) are opaque strings passed in.
-/

/-- One phone record, as the dicts created in `upload_numbers` / `ai_call`:
keys `id`, `number`, `status`, `duration`, `call_sid`, `created_at`,
`called_at`, `notes`. -/
structure PhoneRecord where
  id : Nat
  number : String
  status : String
  duration : Int
  call_sid : Option String
  created_at : String
  called_at : Option String
  notes : String
deriving Repr, DecidableEq

/-- The persisted collection `phone_numbers.json`: a list of records. -/
abbrev Store := List PhoneRecord

/-- The fresh record appended by `upload_numbers` and by `ai_call`'s
on-demand creation: status `pending`, duration 0, no call SID, no
`called_at`, empty notes. -/
def mkPendingRecord (id' : Nat) (number now : String) : PhoneRecord :=
  { id := id', number := number, status := "pending", duration := 0,
    call_sid := none, created_at := now, called_at := none, notes := "" }

/-- Python `max([p['id'] for p in phone_numbers], default=0)`. -/
def maxId (store : Store) : Nat :=
  store.foldl (fun m p => max m p.id) 0

/-- Python `\s` on the ASCII range, also the whitespace set of `str.strip()`
(space, tab, newline, carriage return, vertical tab, form feed). -/
def isSpaceChar (c : Char) : Bool :=
  c = ' ' || c = '\t' || c = '\n' || c = '\x0d' || c = '\x0b' || c = '\x0c'

/-- Python `str.strip()`: remove whitespace from both ends. -/
def pyStrip (s : String) : String :=
  String.mk (((s.data.dropWhile isSpaceChar).reverse.dropWhile isSpaceChar).reverse)

/-- The `numbers_text` loop of `upload_numbers` (main.py lines 279-293):
for each line, strip; skip if empty or if some record already has that
number (checked against the list as grown so far, so duplicates within the
batch are also skipped); otherwise append a fresh pending record with
`id = len(phone_numbers) + 1` and bump the inserted count. -/
def uploadLoop (now : String) : List String → Store → Nat → Store × Nat
  | [], store, count => (store, count)
  | n :: rest, store, count =>
    let number := pyStrip n
    if number ≠ "" ∧ ¬ store.any (fun p => p.number == number) then
      uploadLoop now rest (store ++ [mkPendingRecord (store.length + 1) number now]) (count + 1)
    else
      uploadLoop now rest store count

/-- `upload_numbers` on a text payload already split into lines: returns the
saved store and the `count` field of the response. -/
def ingest (ns : List String) (now : String) (store : Store) : Store × Nat :=
  uploadLoop now ns store 0

/-- Character class `[\d\s\-\(\)]` of the `ai_call` extraction regex. -/
def bodyClass (c : Char) : Bool :=
  c.isDigit || isSpaceChar c || c = '-' || c = '(' || c = ')'

/-- Character class `[\+\d]` of the `ai_call` extraction regex. -/
def startClass (c : Char) : Bool :=
  c = '+' || c.isDigit

/-- `re.search(r'[\+\d][\d\s\-\(\)]{8,}', command)`: the leftmost position
whose character is `+` or a digit and is followed by at least 8 characters
of the body class yields a match consisting of that character and the
maximal (greedy) run of body-class characters after it. -/
def findPhone : List Char → Option (List Char)
  | [] => none
  | c :: rest =>
    if startClass c ∧ 8 ≤ (rest.takeWhile bodyClass).length then
      some (c :: rest.takeWhile bodyClass)
    else
      findPhone rest

/-- `re.sub(r'[\s\-\(\)]', '', phone_match.group().strip())`: drop every
space, dash and parenthesis from the matched text. -/
def normalizePhone (m : List Char) : String :=
  String.mk (m.filter (fun c => ¬ (isSpaceChar c || c = '-' || c = '(' || c = ')')))

/-- Outcome of `twilio_client.calls.create`: the SID of the created call, or
the text of the raised exception. -/
inductive ProviderResult where
  | ok (sid : String)
  | err (msg : String)
deriving Repr, DecidableEq

/-- Response dict of `/api/ai_call`: `success`, `message`, and `call_sid`
(present only on the success path). -/
structure CallResponse where
  success : Bool
  message : String
  call_sid : Option String
deriving Repr, DecidableEq

/-- The per-record effect of one `calls.create` attempt, shared by `ai_call`
(lines 338-368) and `bulk_call` (lines 390-405): on success set the SID,
move to `calling` and stamp `called_at`; on a provider exception move to
`failed` and store the error text in `notes` (note: `called_at` and
`call_sid` are not touched on this path). -/
def applyCallResult (pr : ProviderResult) (now : String) (p : PhoneRecord) : PhoneRecord :=
  match pr with
  | .ok sid => { p with call_sid := some sid, status := "calling", called_at := some now }
  | .err e => { p with status := "failed", notes := e }

/-- Mutate the first record with the given number, as Python's
`next((p for p in phone_numbers if p['number'] == number), None)` followed
by in-place mutation of that dict. -/
def updateFirstByNumber (number : String) (f : PhoneRecord → PhoneRecord) : Store → Store
  | [] => []
  | p :: rest =>
    if p.number == number then f p :: rest
    else p :: updateFirstByNumber number f rest

/-- `/api/ai_call` (main.py lines 303-372): extract a phone number from the
command text (else fail with no store change); fail if Twilio is not
configured; otherwise find the record with that number, creating a fresh
pending one with `id = max(ids, default=0) + 1` if none exists, then apply
the provider outcome to it and save. -/
def aiCall (command : String) (configured : Bool) (pr : ProviderResult)
    (now : String) (store : Store) : Store × CallResponse :=
  match findPhone command.data with
  | none => (store, ⟨false, "❌ Could not find phone number", none⟩)
  | some m =>
    let number := normalizePhone m
    if configured then
      let store1 :=
        if store.any (fun p => p.number == number) then store
        else store ++ [mkPendingRecord (maxId store + 1) number now]
      let store2 := updateFirstByNumber number (applyCallResult pr now) store1
      match pr with
      | .ok sid => (store2, ⟨true, "✓ Calling " ++ number ++ "...", some sid⟩)
      | .err e => (store2, ⟨false, "❌ " ++ e, none⟩)
    else
      (store, ⟨false, "❌ Twilio not configured", none⟩)

/-- Response dict of `/api/bulk_call`: `success` and `message` (the
attempted count only appears interpolated into the message string). -/
structure BulkResponse where
  success : Bool
  message : String
deriving Repr, DecidableEq

/-- `/api/bulk_call` (main.py lines 375-411): fail if Twilio is not
configured; select the records whose status is `pending`; fail with
"No pending numbers" if none; otherwise attempt one provider call per
pending record (each failure confined to its own record) and save.  The
provider outcome for a record is a function of its number. -/
def bulkCall (configured : Bool) (provider : String → ProviderResult)
    (now : String) (store : Store) : Store × BulkResponse :=
  if configured then
    let pending := store.filter (fun p => p.status == "pending")
    if pending.isEmpty then
      (store, ⟨false, "No pending numbers"⟩)
    else
      (store.map (fun p =>
          if p.status == "pending" then applyCallResult (provider p.number) now p else p),
       ⟨true, "✓ Started calling " ++ toString pending.length ++ " numbers"⟩)
  else
    (store, ⟨false, "❌ Twilio not configured"⟩)

/-- `update_call_status_by_sid` (main.py lines 192-214): walk the list, and
at the first record whose `call_sid` equals the given SID overwrite its
`status` and `duration` and stop (`break`); return whether a record was
updated.  A record whose `call_sid` is `None` never matches. -/
def updateBySid (sid status : String) (duration : Int) : Store → Store × Bool
  | [] => ([], false)
  | p :: rest =>
    if p.call_sid == some sid then
      ({ p with status := status, duration := duration } :: rest, true)
    else
      let r := updateBySid sid status duration rest
      (p :: r.1, r.2)

/-- Response of `/api/call_status`: the webhook always answers
`{"status": "ok"}` on the non-exception path. -/
structure WebhookResponse where
  status : String
deriving Repr, DecidableEq

/-- `/api/call_status` (main.py lines 430-457): apply
`update_call_status_by_sid` with the form's `CallSid`, `CallStatus` and
`CallDuration`, and acknowledge with `{"status": "ok"}` whether or not a
record matched. -/
def callStatusWebhook (sid status : String) (duration : Int) (store : Store) :
    Store × WebhookResponse :=
  ((updateBySid sid status duration store).1, ⟨"ok"⟩)

/-! ### Webhook reconciler: lemmas and claims C2, C3, C10 -/

theorem updateBySid_no_match (store : Store) (sid status : String) (duration : Int)
    (h : ∀ p ∈ store, p.call_sid ≠ some sid) :
    updateBySid sid status duration store = (store, false) := by
  induction store with
  | nil => rfl
  | cons p rest ih =>
    have hp : ¬ p.call_sid = some sid := h p (List.mem_cons_self p rest)
    have hrest := ih (fun q hq => h q (List.mem_cons_of_mem p hq))
    simp [updateBySid, beq_iff_eq, hp, hrest]

/-- C2: a status event whose call SID matches no record leaves the store
unchanged, and the webhook still answers `{"status": "ok"}`. -/
theorem receiveStatusEvent_unknown_sid_noop (store : Store) (sid status : String)
    (duration : Int) (h : ∀ p ∈ store, p.call_sid ≠ some sid) :
    (callStatusWebhook sid status duration store).1 = store ∧
    (callStatusWebhook sid status duration store).2.status = "ok" := by
  refine ⟨?_, rfl⟩
  show (updateBySid sid status duration store).1 = store
  rw [updateBySid_no_match store sid status duration h]

/-- Witness for C2: a store whose single record has no call SID is untouched
by an event for SID `CA9`, and the webhook acknowledges. -/
theorem receiveStatusEvent_unknown_sid_noop_witness :
    (callStatusWebhook "CA9" "completed" 5 [mkPendingRecord 1 "+15551234567" "t"]).1 =
      [mkPendingRecord 1 "+15551234567" "t"] ∧
    (callStatusWebhook "CA9" "completed" 5 [mkPendingRecord 1 "+15551234567" "t"]).2.status =
      "ok" :=
  receiveStatusEvent_unknown_sid_noop [mkPendingRecord 1 "+15551234567" "t"]
    "CA9" "completed" 5 (by decide)

/-- C3: replaying the same status event is a no-op overwrite: applying the
webhook twice with the same SID, status and duration produces the same store
(and the same acknowledgment) as applying it once. -/
theorem receiveStatusEvent_idempotent (store : Store) (sid status : String)
    (duration : Int) :
    callStatusWebhook sid status duration (callStatusWebhook sid status duration store).1 =
      callStatusWebhook sid status duration store := by
  show ((updateBySid sid status duration (updateBySid sid status duration store).1).1,
          WebhookResponse.mk "ok") = _
  have key : (updateBySid sid status duration (updateBySid sid status duration store).1).1 =
      (updateBySid sid status duration store).1 := by
    induction store with
    | nil => rfl
    | cons p rest ih =>
      by_cases hp : p.call_sid = some sid
      · simp [updateBySid, beq_iff_eq, hp]
      · simp [updateBySid, beq_iff_eq, hp, ih]
  rw [key]
  rfl

/-- C10: the webhook mutates exactly the first record whose `call_sid`
equals the SID: that record gets the new status and duration with every
other field kept, and every record after it — matching or not — is
unchanged. -/
theorem receiveStatusEvent_first_match_only (pre post : Store) (r : PhoneRecord)
    (sid status : String) (duration : Int)
    (hpre : ∀ p ∈ pre, p.call_sid ≠ some sid) (hr : r.call_sid = some sid) :
    updateBySid sid status duration (pre ++ r :: post) =
      (pre ++ { r with status := status, duration := duration } :: post, true) := by
  induction pre with
  | nil => simp [updateBySid, beq_iff_eq, hr]
  | cons p rest ih =>
    have hp : ¬ p.call_sid = some sid := hpre p (List.mem_cons_self p rest)
    have := ih (fun q hq => hpre q (List.mem_cons_of_mem p hq))
    simp [updateBySid, beq_iff_eq, hp, this]

/-- Witness for C10: with two records both carrying SID `CA1`, only the
first is rewritten; the second keeps its old status. -/
theorem receiveStatusEvent_first_match_only_witness :
    updateBySid "CA1" "completed" 42
      ([] ++
        { id := 1, number := "+10000000001", status := "calling", duration := 0,
          call_sid := some "CA1", created_at := "t0", called_at := some "t1",
          notes := "" } ::
        [{ id := 2, number := "+10000000002", status := "calling", duration := 0,
           call_sid := some "CA1", created_at := "t0", called_at := some "t1",
           notes := "x" }]) =
      ([] ++
        { id := 1, number := "+10000000001", status := "completed", duration := 42,
          call_sid := some "CA1", created_at := "t0", called_at := some "t1",
          notes := "" } ::
        [{ id := 2, number := "+10000000002", status := "calling", duration := 0,
           call_sid := some "CA1", created_at := "t0", called_at := some "t1",
           notes := "x" }], true) :=
  receiveStatusEvent_first_match_only []
    [{ id := 2, number := "+10000000002", status := "calling", duration := 0,
       call_sid := some "CA1", created_at := "t0", called_at := some "t1",
       notes := "x" }]
    { id := 1, number := "+10000000001", status := "calling", duration := 0,
      call_sid := some "CA1", created_at := "t0", called_at := some "t1",
      notes := "" }
    "CA1" "completed" 42 (by decide) (by decide)

/-! ### Single dispatch: lemmas and claim C5 -/

theorem updateFirstByNumber_mem (number : String) (f : PhoneRecord → PhoneRecord)
    (store : Store) (h : store.any (fun p => p.number == number) = true) :
    ∃ q, q ∈ store ∧ q.number = number ∧ f q ∈ updateFirstByNumber number f store := by
  induction store with
  | nil => simp at h
  | cons p rest ih =>
    by_cases hp : p.number = number
    · exact ⟨p, List.mem_cons_self p rest, hp,
        by simp [updateFirstByNumber, beq_iff_eq, hp]⟩
    · have h' : rest.any (fun p => p.number == number) = true := by
        simpa [beq_iff_eq, hp] using h
      obtain ⟨q, hq, hqn, hqf⟩ := ih h'
      exact ⟨q, List.mem_cons_of_mem p hq, hqn,
        by simp [updateFirstByNumber, beq_iff_eq, hp]; exact Or.inr hqf⟩

theorem aiCall_ok_eq (cmd : String) (m : List Char) (sid now : String) (store : Store)
    (hm : findPhone cmd.data = some m) :
    aiCall cmd true (ProviderResult.ok sid) now store =
      (updateFirstByNumber (normalizePhone m)
         (applyCallResult (ProviderResult.ok sid) now)
         (if store.any (fun p => p.number == normalizePhone m) then store
          else store ++ [mkPendingRecord (maxId store + 1) (normalizePhone m) now]),
       ⟨true, "✓ Calling " ++ normalizePhone m ++ "...", some sid⟩) := by
  rw [aiCall.eq_def, hm]
  rfl

theorem aiCall_err_eq (cmd : String) (m : List Char) (e now : String) (store : Store)
    (hm : findPhone cmd.data = some m) :
    aiCall cmd true (ProviderResult.err e) now store =
      (updateFirstByNumber (normalizePhone m)
         (applyCallResult (ProviderResult.err e) now)
         (if store.any (fun p => p.number == normalizePhone m) then store
          else store ++ [mkPendingRecord (maxId store + 1) (normalizePhone m) now]),
       ⟨false, "❌ " ++ e, none⟩) := by
  rw [aiCall.eq_def, hm]
  rfl

theorem findOrCreate_any (number now : String) (store : Store) :
    ((if store.any (fun p => p.number == number) then store
      else store ++ [mkPendingRecord (maxId store + 1) number now]).any
        (fun p => p.number == number)) = true := by
  by_cases h : store.any (fun p => p.number == number) = true
  · simp [h]
  · simp only [h]
    simp [List.any_append, mkPendingRecord]

/-- C5: when the command contains a phone number and Twilio is configured,
a successful dispatch answers success with the SID and leaves the target
record (same normalized number) in state `calling` with that non-empty SID
stored; a provider rejection answers failure and leaves the target record in
state `failed` — not `calling` — with the non-empty error text in `notes`. -/
theorem dispatchOne_success_failure (cmd now : String) (m : List Char) (store : Store)
    (sid err : String) (hm : findPhone cmd.data = some m) (hsid : sid ≠ "")
    (herr : err ≠ "") :
    ((aiCall cmd true (ProviderResult.ok sid) now store).2.success = true ∧
     (aiCall cmd true (ProviderResult.ok sid) now store).2.call_sid = some sid ∧
     ∃ p, p ∈ (aiCall cmd true (ProviderResult.ok sid) now store).1 ∧
       p.number = normalizePhone m ∧ p.status = "calling" ∧
       p.call_sid = some sid ∧ sid ≠ "") ∧
    ((aiCall cmd true (ProviderResult.err err) now store).2.success = false ∧
     ∃ p, p ∈ (aiCall cmd true (ProviderResult.err err) now store).1 ∧
       p.number = normalizePhone m ∧ p.status = "failed" ∧
       p.notes = err ∧ p.notes ≠ "" ∧ p.status ≠ "calling") := by
  constructor
  · rw [aiCall_ok_eq cmd m sid now store hm]
    refine ⟨rfl, rfl, ?_⟩
    obtain ⟨q, _, hqn, hqf⟩ :=
      updateFirstByNumber_mem (normalizePhone m)
        (applyCallResult (ProviderResult.ok sid) now) _
        (findOrCreate_any (normalizePhone m) now store)
    exact ⟨applyCallResult (ProviderResult.ok sid) now q, hqf, by simpa [applyCallResult],
      rfl, rfl, hsid⟩
  · rw [aiCall_err_eq cmd m err now store hm]
    refine ⟨rfl, ?_⟩
    obtain ⟨q, _, hqn, hqf⟩ :=
      updateFirstByNumber_mem (normalizePhone m)
        (applyCallResult (ProviderResult.err err) now) _
        (findOrCreate_any (normalizePhone m) now store)
    exact ⟨applyCallResult (ProviderResult.err err) now q, hqf,
      by simpa [applyCallResult], rfl, rfl, herr, by simp [applyCallResult]⟩

/-- Witness for C5 at the empty store, command `"+15551234567"`, SID `CA1`
and error text `boom`. -/
theorem dispatchOne_success_failure_witness :
    ((aiCall "+15551234567" true (ProviderResult.ok "CA1") "t" []).2.success = true ∧
     (aiCall "+15551234567" true (ProviderResult.ok "CA1") "t" []).2.call_sid = some "CA1" ∧
     ∃ p, p ∈ (aiCall "+15551234567" true (ProviderResult.ok "CA1") "t" []).1 ∧
       p.number = normalizePhone "+15551234567".data ∧ p.status = "calling" ∧
       p.call_sid = some "CA1" ∧ "CA1" ≠ "") ∧
    ((aiCall "+15551234567" true (ProviderResult.err "boom") "t" []).2.success = false ∧
     ∃ p, p ∈ (aiCall "+15551234567" true (ProviderResult.err "boom") "t" []).1 ∧
       p.number = normalizePhone "+15551234567".data ∧ p.status = "failed" ∧
       p.notes = "boom" ∧ p.notes ≠ "" ∧ p.status ≠ "calling") :=
  dispatchOne_success_failure "+15551234567" "t" "+15551234567".data [] "CA1" "boom"
    (by decide) (by decide) (by decide)

/-! ### State-machine monotonicity: claim C1 -/

/-- C1 counterexample: on a reachable store (ingest, successful dispatch,
completed webhook), re-issuing `ai_call` for the same number moves the
record from the terminal state `completed` back to `calling`, so the claim
that no terminal record is ever moved to `calling` is false. -/
theorem forwardOnly_counterexample :
    ((callStatusWebhook "CA0" "completed" 42
        (aiCall "call +15551234567" true (ProviderResult.ok "CA0") "t1"
          (ingest ["+15551234567"] "t0" []).1).1).1.map (fun p => p.status) =
      ["completed"]) ∧
    ((aiCall "call +15551234567" true (ProviderResult.ok "CA1") "t2"
        (callStatusWebhook "CA0" "completed" 42
          (aiCall "call +15551234567" true (ProviderResult.ok "CA0") "t1"
            (ingest ["+15551234567"] "t0" []).1).1).1).1.map (fun p => p.status) =
      ["calling"]) := by
  decide

theorem uploadLoop_extends (now : String) (ns : List String) (store : Store) (count : Nat) :
    ∃ new, (uploadLoop now ns store count).1 = store ++ new := by
  induction ns generalizing store count with
  | nil => exact ⟨[], by simp [uploadLoop]⟩
  | cons n rest ih =>
    by_cases hc : pyStrip n ≠ "" ∧ ¬ store.any (fun p => p.number == pyStrip n)
    · obtain ⟨new, hnew⟩ :=
        ih (store ++ [mkPendingRecord (store.length + 1) (pyStrip n) now]) (count + 1)
      refine ⟨mkPendingRecord (store.length + 1) (pyStrip n) now :: new, ?_⟩
      simp only [uploadLoop, if_pos hc] at hnew ⊢
      rw [hnew, List.append_assoc]
      rfl
    · obtain ⟨new, hnew⟩ := ih store count
      exact ⟨new, by simp only [uploadLoop, if_neg hc]; exact hnew⟩

theorem bulkCall_record_transitions (cfg : Bool) (provider : String → ProviderResult)
    (now : String) (store : Store) :
    List.Forall₂
      (fun p q => q = p ∨ (p.status = "pending" ∧ (q.status = "calling" ∨ q.status = "failed")))
      store (bulkCall cfg provider now store).1 := by
  by_cases hcfg : cfg
  · by_cases hemp : (store.filter (fun p => p.status == "pending")).isEmpty
    · have : (bulkCall cfg provider now store).1 = store := by
        simp [bulkCall, hcfg, hemp]
      rw [this, List.forall₂_same]
      exact fun p _ => Or.inl rfl
    · have hmap : (bulkCall cfg provider now store).1 =
          store.map (fun p =>
            if p.status == "pending" then applyCallResult (provider p.number) now p else p) := by
        simp [bulkCall, hcfg, hemp]
      rw [hmap, List.forall₂_map_right_iff, List.forall₂_same]
      intro p _
      by_cases hp : p.status = "pending"
      · right
        refine ⟨hp, ?_⟩
        cases hpr : provider p.number with
        | ok sid => left; simp [beq_iff_eq, hp, applyCallResult, hpr]
        | err e => right; simp [beq_iff_eq, hp, applyCallResult, hpr]
      · left; simp [beq_iff_eq, hp]
  · have : (bulkCall cfg provider now store).1 = store := by simp [bulkCall, hcfg]
    rw [this, List.forall₂_same]
    exact fun p _ => Or.inl rfl

theorem updateBySid_record_transitions (sid st : String) (d : Int) (store : Store) :
    List.Forall₂ (fun p q => q = p ∨ q.status = st) store (updateBySid sid st d store).1 := by
  induction store with
  | nil => exact List.Forall₂.nil
  | cons p rest ih =>
    by_cases hp : p.call_sid = some sid
    · have : (updateBySid sid st d (p :: rest)).1 =
          { p with status := st, duration := d } :: rest := by
        simp [updateBySid, beq_iff_eq, hp]
      rw [this]
      exact List.Forall₂.cons (Or.inr rfl) ((List.forall₂_same).2 (fun q _ => Or.inl rfl))
    · have : (updateBySid sid st d (p :: rest)).1 = p :: (updateBySid sid st d rest).1 := by
        simp [updateBySid, beq_iff_eq, hp]
      rw [this]
      exact List.Forall₂.cons (Or.inl rfl) ih

/-- C1 (amended): ingestion never touches an existing record (it only
appends new pending ones); bulk dispatch moves each record either nowhere or
from `pending` to `calling`/`failed`; and a status event with a terminal
status (`completed`, `failed`, `busy`, `no-answer`) leaves each record
either unchanged or with that terminal status — in particular it never sets
a record to `pending` or `calling`.  (Single dispatch is the exception the
counterexample exhibits: `ai_call` re-dials the matching record whatever its
state, so it can move a terminal record back to `calling`; and a webhook
whose status string is not terminal is stored verbatim.) -/
theorem forwardOnly_amended (ns : List String) (now evStatus sid : String) (d : Int)
    (cfg : Bool) (provider : String → ProviderResult) (store : Store)
    (hterm : evStatus = "completed" ∨ evStatus = "failed" ∨ evStatus = "busy" ∨
      evStatus = "no-answer") :
    (∃ new, (ingest ns now store).1 = store ++ new) ∧
    List.Forall₂
      (fun p q => q = p ∨ (p.status = "pending" ∧ (q.status = "calling" ∨ q.status = "failed")))
      store (bulkCall cfg provider now store).1 ∧
    List.Forall₂
      (fun p q => q = p ∨ (q.status = evStatus ∧ q.status ≠ "pending" ∧ q.status ≠ "calling"))
      store (callStatusWebhook sid evStatus d store).1 := by
  refine ⟨uploadLoop_extends now ns store 0, bulkCall_record_transitions cfg provider now store, ?_⟩
  have hne : evStatus ≠ "pending" ∧ evStatus ≠ "calling" := by
    rcases hterm with h | h | h | h <;> rw [h] <;> exact ⟨by decide, by decide⟩
  refine List.Forall₂.imp ?_ (updateBySid_record_transitions sid evStatus d store)
  intro p q hpq
  rcases hpq with h | h
  · exact Or.inl h
  · exact Or.inr ⟨h, h ▸ hne.1, h ▸ hne.2⟩

/-- Witness for the amended C1 on a store with one pending and one
completed record, a completed status event, and a provider that accepts
every call. -/
theorem forwardOnly_amended_witness :
    (∃ new, (ingest ["+15550000001"] "t9"
        [mkPendingRecord 1 "+15551234567" "t0",
         { id := 2, number := "+15557654321", status := "completed", duration := 9,
           call_sid := some "CA7", created_at := "t0", called_at := some "t1",
           notes := "" }]).1 =
      [mkPendingRecord 1 "+15551234567" "t0",
       { id := 2, number := "+15557654321", status := "completed", duration := 9,
         call_sid := some "CA7", created_at := "t0", called_at := some "t1",
         notes := "" }] ++ new) ∧
    List.Forall₂
      (fun p q => q = p ∨ (p.status = "pending" ∧ (q.status = "calling" ∨ q.status = "failed")))
      [mkPendingRecord 1 "+15551234567" "t0",
       { id := 2, number := "+15557654321", status := "completed", duration := 9,
         call_sid := some "CA7", created_at := "t0", called_at := some "t1",
         notes := "" }]
      (bulkCall true (fun _ => ProviderResult.ok "CA8") "t9"
        [mkPendingRecord 1 "+15551234567" "t0",
         { id := 2, number := "+15557654321", status := "completed", duration := 9,
           call_sid := some "CA7", created_at := "t0", called_at := some "t1",
           notes := "" }]).1 ∧
    List.Forall₂
      (fun p q => q = p ∨ (q.status = "completed" ∧ q.status ≠ "pending" ∧ q.status ≠ "calling"))
      [mkPendingRecord 1 "+15551234567" "t0",
       { id := 2, number := "+15557654321", status := "completed", duration := 9,
         call_sid := some "CA7", created_at := "t0", called_at := some "t1",
         notes := "" }]
      (callStatusWebhook "CA7" "completed" 30
        [mkPendingRecord 1 "+15551234567" "t0",
         { id := 2, number := "+15557654321", status := "completed", duration := 9,
           call_sid := some "CA7", created_at := "t0", called_at := some "t1",
           notes := "" }]).1 :=
  forwardOnly_amended ["+15550000001"] "t9" "completed" "CA7" 30 true
    (fun _ => ProviderResult.ok "CA8")
    [mkPendingRecord 1 "+15551234567" "t0",
     { id := 2, number := "+15557654321", status := "completed", duration := 9,
       call_sid := some "CA7", created_at := "t0", called_at := some "t1",
       notes := "" }]
    (Or.inl rfl)

/-! ### Dispatch timestamp: claim C6 -/

/-- C6 counterexample: on a reachable store, a dispatch rejected by the
provider moves the record out of `pending` to `failed` but leaves
`called_at` unset, so "every record that has left pending has dispatchedAt
set" is false. -/
theorem dispatchedAt_counterexample :
    ((aiCall "+15551234567" true (ProviderResult.err "boom") "t1"
        (ingest ["+15551234567"] "t0" []).1).1.map
      (fun p => (p.status, p.called_at))) = [("failed", none)] := by
  decide

theorem updateFirstByNumber_transitions (number : String) (f : PhoneRecord → PhoneRecord)
    (store : Store) :
    List.Forall₂ (fun p q => q = p ∨ q = f p) store (updateFirstByNumber number f store) := by
  induction store with
  | nil => exact List.Forall₂.nil
  | cons p rest ih =>
    by_cases hp : p.number = number
    · have : updateFirstByNumber number f (p :: rest) = f p :: rest := by
        simp [updateFirstByNumber, beq_iff_eq, hp]
      rw [this]
      exact List.Forall₂.cons (Or.inr rfl) ((List.forall₂_same).2 (fun q _ => Or.inl rfl))
    · have : updateFirstByNumber number f (p :: rest) =
          p :: updateFirstByNumber number f rest := by
        simp [updateFirstByNumber, beq_iff_eq, hp]
      rw [this]
      exact List.Forall₂.cons (Or.inl rfl) ih

theorem updateBySid_transitions_full (sid st : String) (d : Int) (store : Store) :
    List.Forall₂ (fun p q => q = p ∨ q = { p with status := st, duration := d })
      store (updateBySid sid st d store).1 := by
  induction store with
  | nil => exact List.Forall₂.nil
  | cons p rest ih =>
    by_cases hp : p.call_sid = some sid
    · have : (updateBySid sid st d (p :: rest)).1 =
          { p with status := st, duration := d } :: rest := by
        simp [updateBySid, beq_iff_eq, hp]
      rw [this]
      exact List.Forall₂.cons (Or.inr rfl) ((List.forall₂_same).2 (fun q _ => Or.inl rfl))
    · have : (updateBySid sid st d (p :: rest)).1 = p :: (updateBySid sid st d rest).1 := by
        simp [updateBySid, beq_iff_eq, hp]
      rw [this]
      exact List.Forall₂.cons (Or.inl rfl) ih

/-- C6 (amended): `called_at` is stamped by a successful dispatch (the
record looked up by number ends in `calling` with `called_at = now`); a
dispatch rejected by the provider changes no record's `called_at` — so the
record it moves to `failed` keeps `called_at` unset if it was; the webhook
never changes any record's `called_at`; and bulk dispatch changes a
record's `called_at` only by stamping `now` on a record that was `pending`.
(The counterexample refutes "every record that has left pending has
dispatchedAt set": the dispatch-error path does not stamp it; nor is the
stamp once-only — a successful re-dial overwrites it.) -/
theorem dispatchedAt_amended (cmd now evStatus sid okSid e : String) (m : List Char)
    (d : Int) (cfg : Bool) (provider : String → ProviderResult) (store : Store)
    (hm : findPhone cmd.data = some m) :
    (∃ p, p ∈ (aiCall cmd true (ProviderResult.ok okSid) now store).1 ∧
       p.number = normalizePhone m ∧ p.status = "calling" ∧ p.called_at = some now) ∧
    List.Forall₂ (fun p q => q.called_at = p.called_at)
      (if store.any (fun p => p.number == normalizePhone m) then store
       else store ++ [mkPendingRecord (maxId store + 1) (normalizePhone m) now])
      (aiCall cmd true (ProviderResult.err e) now store).1 ∧
    List.Forall₂ (fun p q => q.called_at = p.called_at)
      store (callStatusWebhook sid evStatus d store).1 ∧
    List.Forall₂
      (fun p q => q.called_at = p.called_at ∨ (p.status = "pending" ∧ q.called_at = some now))
      store (bulkCall cfg provider now store).1 := by
  refine ⟨?_, ?_, ?_, ?_⟩
  · rw [aiCall_ok_eq cmd m okSid now store hm]
    obtain ⟨q, _, hqn, hqf⟩ :=
      updateFirstByNumber_mem (normalizePhone m)
        (applyCallResult (ProviderResult.ok okSid) now) _
        (findOrCreate_any (normalizePhone m) now store)
    exact ⟨applyCallResult (ProviderResult.ok okSid) now q, hqf,
      by simpa [applyCallResult], rfl, rfl⟩
  · rw [aiCall_err_eq cmd m e now store hm]
    refine List.Forall₂.imp ?_ (updateFirstByNumber_transitions (normalizePhone m)
      (applyCallResult (ProviderResult.err e) now) _)
    intro p q hpq
    rcases hpq with h | h
    · rw [h]
    · rw [h]; rfl
  · refine List.Forall₂.imp ?_ (updateBySid_transitions_full sid evStatus d store)
    intro p q hpq
    rcases hpq with h | h
    · rw [h]
    · rw [h]
  · by_cases hcfg : cfg
    · by_cases hemp : (store.filter (fun p => p.status == "pending")).isEmpty
      · have : (bulkCall cfg provider now store).1 = store := by
          simp [bulkCall, hcfg, hemp]
        rw [this, List.forall₂_same]
        exact fun p _ => Or.inl rfl
      · have hmap : (bulkCall cfg provider now store).1 =
            store.map (fun p =>
              if p.status == "pending" then applyCallResult (provider p.number) now p
              else p) := by
          simp [bulkCall, hcfg, hemp]
        rw [hmap, List.forall₂_map_right_iff, List.forall₂_same]
        intro p _
        by_cases hp : p.status = "pending"
        · cases hpr : provider p.number with
          | ok s => right; refine ⟨hp, ?_⟩; simp [beq_iff_eq, hp, applyCallResult, hpr]
          | err s => left; simp [beq_iff_eq, hp, applyCallResult, hpr]
        · left; simp [beq_iff_eq, hp]
    · have : (bulkCall cfg provider now store).1 = store := by simp [bulkCall, hcfg]
      rw [this, List.forall₂_same]
      exact fun p _ => Or.inl rfl

/-- Witness for the amended C6 at the empty store with command
`"+15551234567"`. -/
theorem dispatchedAt_amended_witness :
    (∃ p, p ∈ (aiCall "+15551234567" true (ProviderResult.ok "CA1") "t1" []).1 ∧
       p.number = normalizePhone "+15551234567".data ∧ p.status = "calling" ∧
       p.called_at = some "t1") ∧
    List.Forall₂ (fun p q => q.called_at = p.called_at)
      [mkPendingRecord 1 "+15551234567" "t1"]
      (aiCall "+15551234567" true (ProviderResult.err "boom") "t1" []).1 ∧
    List.Forall₂ (fun p q => q.called_at = p.called_at)
      ([] : Store) (callStatusWebhook "CA1" "completed" 42 []).1 ∧
    List.Forall₂
      (fun p q => q.called_at = p.called_at ∨ (p.status = "pending" ∧ q.called_at = some "t1"))
      ([] : Store) (bulkCall true (fun _ => ProviderResult.ok "CA2") "t1" []).1 :=
  dispatchedAt_amended "+15551234567" "t1" "completed" "CA1" "CA1" "boom"
    "+15551234567".data 42 true (fun _ => ProviderResult.ok "CA2") [] (by decide)

/-! ### Bulk dispatch: claim C8 -/

/-- C8: with Twilio configured, bulk dispatch fails with "No pending
numbers" and leaves the store unchanged when no record is `pending`;
otherwise it reports success with the number of records that were `pending`
at call time as the attempted count, leaves every non-pending record
exactly as it was, and gives each pending record the outcome of its own
provider call — so one record's provider failure cannot affect any other
record's dispatch. -/
theorem dispatchBulk_spec (provider : String → ProviderResult) (now : String)
    (store : Store) :
    (store.filter (fun p => p.status == "pending") = [] →
      bulkCall true provider now store = (store, ⟨false, "No pending numbers"⟩)) ∧
    (store.filter (fun p => p.status == "pending") ≠ [] →
      (bulkCall true provider now store).2 =
        ⟨true, "✓ Started calling " ++
          toString (store.filter (fun p => p.status == "pending")).length ++ " numbers"⟩ ∧
      List.Forall₂ (fun p q =>
          (p.status ≠ "pending" → q = p) ∧
          (p.status = "pending" → q = applyCallResult (provider p.number) now p))
        store (bulkCall true provider now store).1) := by
  constructor
  · intro h
    simp [bulkCall, h]
  · intro h
    have hne : (store.filter (fun p => p.status == "pending")).isEmpty = false := by
      cases hp : store.filter (fun p => p.status == "pending") with
      | nil => exact absurd hp h
      | cons a l => rfl
    constructor
    · simp [bulkCall, hne]
    · have hmap : (bulkCall true provider now store).1 =
          store.map (fun p =>
            if p.status == "pending" then applyCallResult (provider p.number) now p
            else p) := by
        simp [bulkCall, hne]
      rw [hmap, List.forall₂_map_right_iff, List.forall₂_same]
      intro p _
      constructor
      · intro hp; simp [beq_iff_eq, hp]
      · intro hp; simp [beq_iff_eq, hp]

/-- Witness for C8: the spec scenario — three pending records and one
calling record give attempted count 3 with the calling record untouched —
and the empty-selection case on a store whose only record is `calling`. -/
theorem dispatchBulk_spec_witness :
    ((bulkCall true (fun _ => ProviderResult.ok "CA5") "t9"
        [mkPendingRecord 1 "+15550000001" "t0",
         mkPendingRecord 2 "+15550000002" "t0",
         { id := 3, number := "+15550000003", status := "calling", duration := 0,
           call_sid := some "CA4", created_at := "t0", called_at := some "t1",
           notes := "" },
         mkPendingRecord 4 "+15550000004" "t0"]).2 =
      ⟨true, "✓ Started calling 3 numbers"⟩) ∧
    List.Forall₂ (fun p q =>
        (p.status ≠ "pending" → q = p) ∧
        (p.status = "pending" →
          q = applyCallResult ((fun _ => ProviderResult.ok "CA5") p.number) "t9" p))
      [mkPendingRecord 1 "+15550000001" "t0",
       mkPendingRecord 2 "+15550000002" "t0",
       { id := 3, number := "+15550000003", status := "calling", duration := 0,
         call_sid := some "CA4", created_at := "t0", called_at := some "t1",
         notes := "" },
       mkPendingRecord 4 "+15550000004" "t0"]
      (bulkCall true (fun _ => ProviderResult.ok "CA5") "t9"
        [mkPendingRecord 1 "+15550000001" "t0",
         mkPendingRecord 2 "+15550000002" "t0",
         { id := 3, number := "+15550000003", status := "calling", duration := 0,
           call_sid := some "CA4", created_at := "t0", called_at := some "t1",
           notes := "" },
         mkPendingRecord 4 "+15550000004" "t0"]).1 ∧
    (bulkCall true (fun _ => ProviderResult.ok "CA5") "t9"
        [{ id := 3, number := "+15550000003", status := "calling", duration := 0,
           call_sid := some "CA4", created_at := "t0", called_at := some "t1",
           notes := "" }] =
      ([{ id := 3, number := "+15550000003", status := "calling", duration := 0,
          call_sid := some "CA4", created_at := "t0", called_at := some "t1",
          notes := "" }], ⟨false, "No pending numbers"⟩)) :=
  ⟨((dispatchBulk_spec (fun _ => ProviderResult.ok "CA5") "t9"
      [mkPendingRecord 1 "+15550000001" "t0",
       mkPendingRecord 2 "+15550000002" "t0",
       { id := 3, number := "+15550000003", status := "calling", duration := 0,
         call_sid := some "CA4", created_at := "t0", called_at := some "t1",
         notes := "" },
       mkPendingRecord 4 "+15550000004" "t0"]).2 (by decide)).1,
   ((dispatchBulk_spec (fun _ => ProviderResult.ok "CA5") "t9"
      [mkPendingRecord 1 "+15550000001" "t0",
       mkPendingRecord 2 "+15550000002" "t0",
       { id := 3, number := "+15550000003", status := "calling", duration := 0,
         call_sid := some "CA4", created_at := "t0", called_at := some "t1",
         notes := "" },
       mkPendingRecord 4 "+15550000004" "t0"]).2 (by decide)).2,
   (dispatchBulk_spec (fun _ => ProviderResult.ok "CA5") "t9"
      [{ id := 3, number := "+15550000003", status := "calling", duration := 0,
         call_sid := some "CA4", created_at := "t0", called_at := some "t1",
         notes := "" }]).1 (by decide)⟩

/-! ### Ingestion: claim C9 -/

theorem uploadLoop_spec (now : String) (ns : List String) :
    ∀ (store : Store) (count : Nat),
      ∃ new, (uploadLoop now ns store count).1 = store ++ new ∧
        (uploadLoop now ns store count).2 = count + new.length ∧
        ∀ p ∈ new, p.status = "pending" ∧ p.duration = 0 ∧ p.call_sid = none ∧
          p.number ≠ "" ∧ ∃ n ∈ ns, p.number = pyStrip n := by
  induction ns with
  | nil => exact fun store count => ⟨[], by simp [uploadLoop]⟩
  | cons n rest ih =>
    intro store count
    by_cases hc : pyStrip n ≠ "" ∧ ¬ store.any (fun p => p.number == pyStrip n)
    · obtain ⟨new, h1, h2, h3⟩ :=
        ih (store ++ [mkPendingRecord (store.length + 1) (pyStrip n) now]) (count + 1)
      refine ⟨mkPendingRecord (store.length + 1) (pyStrip n) now :: new, ?_, ?_, ?_⟩
      · simp only [uploadLoop, if_pos hc]
        rw [h1, List.append_assoc]
        rfl
      · simp only [uploadLoop, if_pos hc]
        rw [h2, List.length_cons]
        omega
      · intro p hp
        rcases List.mem_cons.mp hp with h | h
        · subst h
          exact ⟨rfl, rfl, rfl, hc.1, n, List.mem_cons_self n rest, rfl⟩
        · obtain ⟨a, b, c, d, nn, hnn, he⟩ := h3 p h
          exact ⟨a, b, c, d, nn, List.mem_cons_of_mem n hnn, he⟩
    · obtain ⟨new, h1, h2, h3⟩ := ih store count
      refine ⟨new, ?_, ?_, ?_⟩
      · simp only [uploadLoop, if_neg hc]
        exact h1
      · simp only [uploadLoop, if_neg hc]
        exact h2
      · intro p hp
        obtain ⟨a, b, c, d, nn, hnn, he⟩ := h3 p hp
        exact ⟨a, b, c, d, nn, List.mem_cons_of_mem n hnn, he⟩

theorem uploadLoop_nodup (now : String) (ns : List String) :
    ∀ (store : Store) (count : Nat), (store.map (fun p => p.number)).Nodup →
      ((uploadLoop now ns store count).1.map (fun p => p.number)).Nodup := by
  induction ns with
  | nil => intro store count h; simpa [uploadLoop] using h
  | cons n rest ih =>
    intro store count h
    by_cases hc : pyStrip n ≠ "" ∧ ¬ store.any (fun p => p.number == pyStrip n)
    · have hnotin : pyStrip n ∉ store.map (fun p => p.number) := by
        intro hmem
        obtain ⟨p, hp, hpe⟩ := List.mem_map.mp hmem
        exact hc.2 (List.any_eq_true.mpr ⟨p, hp, by simp [beq_iff_eq, hpe]⟩)
      have h' : ((store ++ [mkPendingRecord (store.length + 1) (pyStrip n) now]).map
          (fun p => p.number)).Nodup := by
        rw [List.map_append, List.nodup_append]
        refine ⟨h, by simp, ?_⟩
        intro a ha hb
        simp only [List.map_cons, List.map_nil, List.mem_singleton, mkPendingRecord] at hb
        exact hnotin (hb ▸ ha)
      simp only [uploadLoop, if_pos hc]
      exact ih _ _ h'
    · simp only [uploadLoop, if_neg hc]
      exact ih _ _ h

theorem uploadLoop_covers (now : String) (ns : List String) :
    ∀ (store : Store) (count : Nat) (n : String), n ∈ ns → pyStrip n ≠ "" →
      ∃ p ∈ (uploadLoop now ns store count).1, p.number = pyStrip n := by
  induction ns with
  | nil => intro store count n hn _; simp at hn
  | cons n0 rest ih =>
    intro store count n hn hne
    rcases List.mem_cons.mp hn with h | h
    · subst h
      by_cases hc : pyStrip n ≠ "" ∧ ¬ store.any (fun p => p.number == pyStrip n)
      · simp only [uploadLoop, if_pos hc]
        obtain ⟨new, hnew⟩ := uploadLoop_extends now rest
          (store ++ [mkPendingRecord (store.length + 1) (pyStrip n) now]) (count + 1)
        refine ⟨mkPendingRecord (store.length + 1) (pyStrip n) now, ?_, rfl⟩
        rw [hnew]
        exact List.mem_append_left _ (List.mem_append_right _ (List.mem_singleton.mpr rfl))
      · have hdup : store.any (fun p => p.number == pyStrip n) = true := by
          by_contra hno
          exact hc ⟨hne, hno⟩
        obtain ⟨p, hp, hpe⟩ := List.any_eq_true.mp hdup
        simp only [uploadLoop, if_neg hc]
        obtain ⟨new, hnew⟩ := uploadLoop_extends now rest store count
        exact ⟨p, by rw [hnew]; exact List.mem_append_left _ hp,
          by simpa [beq_iff_eq] using hpe⟩
    · by_cases hc : pyStrip n0 ≠ "" ∧ ¬ store.any (fun p => p.number == pyStrip n0)
      · simp only [uploadLoop, if_pos hc]
        exact ih _ _ n h hne
      · simp only [uploadLoop, if_neg hc]
        exact ih _ _ n h hne

/-- C9: ingestion appends only new records, each `pending` with duration 0,
no call SID and a non-empty stripped input as its number, and the returned
count is the number of records appended; number-uniqueness of the store is
preserved (so duplicates — against pre-existing records or against records
inserted earlier in the same batch — are skipped); every non-empty stripped
input ends up represented by some record; and the spec scenario ingests
exactly two of `["+15551234567", "+15551234567", " +15557654321 "]`, both
pending. -/
theorem ingest_spec (ns : List String) (now : String) (store : Store) :
    (∃ new, (ingest ns now store).1 = store ++ new ∧
      (ingest ns now store).2 = new.length ∧
      ∀ p ∈ new, p.status = "pending" ∧ p.duration = 0 ∧ p.call_sid = none ∧
        p.number ≠ "" ∧ ∃ n ∈ ns, p.number = pyStrip n) ∧
    ((store.map (fun p => p.number)).Nodup →
      ((ingest ns now store).1.map (fun p => p.number)).Nodup) ∧
    (∀ n ∈ ns, pyStrip n ≠ "" → ∃ p ∈ (ingest ns now store).1, p.number = pyStrip n) ∧
    ingest ["+15551234567", "+15551234567", " +15557654321 "] now [] =
      ([mkPendingRecord 1 "+15551234567" now, mkPendingRecord 2 "+15557654321" now], 2) := by
  refine ⟨?_, ?_, ?_, ?_⟩
  · obtain ⟨new, h1, h2, h3⟩ := uploadLoop_spec now ns store 0
    exact ⟨new, h1, by simpa using h2, h3⟩
  · exact uploadLoop_nodup now ns store 0
  · exact fun n hn hne => uploadLoop_covers now ns store 0 n hn hne
  · rfl

/-- Witness for C9 at a one-element batch needing stripping, on the empty
store. -/
theorem ingest_spec_witness :
    ((ingest [" +15557654321 "] "t" []).1.map (fun p => p.number)).Nodup ∧
    ∃ p ∈ (ingest [" +15557654321 "] "t" []).1, p.number = pyStrip " +15557654321 " :=
  ⟨(ingest_spec [" +15557654321 "] "t" []).2.1 (by decide),
   (ingest_spec [" +15557654321 "] "t" []).2.2.1 " +15557654321 "
     (List.mem_singleton.mpr rfl) (by decide)⟩

/-! ### Id assignment: claim C7 -/

/-- Invariant of every store reachable by the repository's operations from
the empty file: record ids are exactly `1, 2, …, length` in list order. -/
def idsOk (store : Store) : Prop :=
  store.map (fun p => p.id) = List.range' 1 store.length

theorem foldl_max_range' (n : Nat) :
    (List.range' 1 n).foldl (fun m k => max m k) 0 = n := by
  induction n with
  | zero => rfl
  | succ k ih =>
    rw [List.range'_concat, List.foldl_append, ih]
    simp
    omega

theorem maxId_eq_length (store : Store) (h : idsOk store) :
    maxId store = store.length := by
  have hrw : maxId store = (store.map (fun p => p.id)).foldl (fun m k => max m k) 0 := by
    rw [List.foldl_map]
    rfl
  rw [hrw, h]
  exact foldl_max_range' store.length

theorem idsOk_append (store : Store) (num now : String) (h : idsOk store) :
    idsOk (store ++ [mkPendingRecord (store.length + 1) num now]) := by
  show (store ++ [mkPendingRecord (store.length + 1) num now]).map (fun p => p.id) =
    List.range' 1 (store ++ [mkPendingRecord (store.length + 1) num now]).length
  rw [List.map_append, h, List.length_append]
  simp [List.range'_concat, mkPendingRecord, Nat.add_comm]

theorem uploadLoop_idsOk (now : String) (ns : List String) :
    ∀ (store : Store) (count : Nat), idsOk store → idsOk (uploadLoop now ns store count).1 := by
  induction ns with
  | nil => intro store count h; simpa [uploadLoop] using h
  | cons n rest ih =>
    intro store count h
    by_cases hc : pyStrip n ≠ "" ∧ ¬ store.any (fun p => p.number == pyStrip n)
    · simp only [uploadLoop, if_pos hc]
      exact ih _ _ (idsOk_append store (pyStrip n) now h)
    · simp only [uploadLoop, if_neg hc]
      exact ih _ _ h

theorem applyCallResult_id (pr : ProviderResult) (now : String) (p : PhoneRecord) :
    (applyCallResult pr now p).id = p.id := by
  cases pr <;> rfl

theorem applyCallResult_number (pr : ProviderResult) (now : String) (p : PhoneRecord) :
    (applyCallResult pr now p).number = p.number := by
  cases pr <;> rfl

theorem updateFirst_append_last (number : String) (f : PhoneRecord → PhoneRecord)
    (store : Store) (p0 : PhoneRecord) (h : ∀ p ∈ store, p.number ≠ number)
    (hp0 : p0.number = number) :
    updateFirstByNumber number f (store ++ [p0]) = store ++ [f p0] := by
  induction store with
  | nil => simp [updateFirstByNumber, beq_iff_eq, hp0]
  | cons p rest ih =>
    have hp : ¬ p.number = number := h p (List.mem_cons_self p rest)
    simp only [List.cons_append, updateFirstByNumber, beq_iff_eq]
    rw [if_neg (by simpa using hp)]
    exact congrArg (fun l => p :: l) (ih (fun q hq => h q (List.mem_cons_of_mem p hq)))

theorem aiCall_create_eq (cmd : String) (m : List Char) (pr : ProviderResult)
    (now : String) (store : Store) (hm : findPhone cmd.data = some m)
    (hnew : store.any (fun p => p.number == normalizePhone m) = false) :
    (aiCall cmd true pr now store).1 =
      store ++ [applyCallResult pr now
        (mkPendingRecord (maxId store + 1) (normalizePhone m) now)] := by
  have hnone : ∀ p ∈ store, p.number ≠ normalizePhone m := by
    intro p hp
    have := List.any_eq_false.mp hnew p hp
    simpa [beq_iff_eq] using this
  cases pr with
  | ok sid =>
    rw [aiCall_ok_eq cmd m sid now store hm]
    show updateFirstByNumber (normalizePhone m) _
        (if store.any (fun p => p.number == normalizePhone m) = true then store
         else store ++ [mkPendingRecord (maxId store + 1) (normalizePhone m) now]) = _
    rw [hnew]
    simp only [Bool.false_eq_true, if_false]
    exact updateFirst_append_last (normalizePhone m) _ store _ hnone rfl
  | err e =>
    rw [aiCall_err_eq cmd m e now store hm]
    show updateFirstByNumber (normalizePhone m) _
        (if store.any (fun p => p.number == normalizePhone m) = true then store
         else store ++ [mkPendingRecord (maxId store + 1) (normalizePhone m) now]) = _
    rw [hnew]
    simp only [Bool.false_eq_true, if_false]
    exact updateFirst_append_last (normalizePhone m) _ store _ hnone rfl

/-- C7: on any store whose ids are `1..n` (true of every store grown from
the empty file by the repository's own operations), `max(existing ids)` is
the store length, so the batch loop's `len + 1` id and `ai_call`'s
`max + 1` id coincide; ingestion preserves the `1..n` shape, so the ids on
the store are pairwise distinct and strictly increasing in assignment
order; and `ai_call`'s on-demand creation of an unknown number appends a
record whose id is `max(existing ids) + 1`, preserving the shape as well. -/
theorem id_assignment (ns : List String) (cmd now : String) (m : List Char)
    (pr : ProviderResult) (store : Store) (h : idsOk store)
    (hm : findPhone cmd.data = some m)
    (hnew : store.any (fun p => p.number == normalizePhone m) = false) :
    maxId store = store.length ∧
    idsOk (ingest ns now store).1 ∧
    ((ingest ns now store).1.map (fun p => p.id)).Nodup ∧
    List.Pairwise (fun a b => a < b) ((ingest ns now store).1.map (fun p => p.id)) ∧
    idsOk (aiCall cmd true pr now store).1 ∧
    ∃ p ∈ (aiCall cmd true pr now store).1, p.number = normalizePhone m ∧
      p.id = maxId store + 1 := by
  have hing : idsOk (ingest ns now store).1 := uploadLoop_idsOk now ns store 0 h
  have hpair : List.Pairwise (fun a b => a < b) ((ingest ns now store).1.map (fun p => p.id)) := by
    rw [hing]
    exact List.pairwise_lt_range' 1 (ingest ns now store).1.length 1
  refine ⟨maxId_eq_length store h, hing, hpair.nodup, hpair, ?_, ?_⟩
  · show idsOk (aiCall cmd true pr now store).1
    rw [aiCall_create_eq cmd m pr now store hm hnew]
    unfold idsOk
    rw [List.map_append, h, List.length_append]
    simp [List.range'_concat, applyCallResult_id, mkPendingRecord,
      maxId_eq_length store h, Nat.add_comm]
  · rw [aiCall_create_eq cmd m pr now store hm hnew]
    refine ⟨applyCallResult pr now (mkPendingRecord (maxId store + 1) (normalizePhone m) now),
      List.mem_append_right _ (List.mem_singleton.mpr rfl), ?_, ?_⟩
    · rw [applyCallResult_number]
      rfl
    · rw [applyCallResult_id]
      rfl

/-- Witness for C7 on the empty store, a one-line batch and the command
`"+15551234567"`. -/
theorem id_assignment_witness :
    maxId [] = List.length ([] : Store) ∧
    idsOk (ingest ["+15550000001"] "t" []).1 ∧
    ((ingest ["+15550000001"] "t" []).1.map (fun p => p.id)).Nodup ∧
    List.Pairwise (fun a b => a < b)
      ((ingest ["+15550000001"] "t" []).1.map (fun p => p.id)) ∧
    idsOk (aiCall "+15551234567" true (ProviderResult.ok "CA1") "t" []).1 ∧
    ∃ p ∈ (aiCall "+15551234567" true (ProviderResult.ok "CA1") "t" []).1,
      p.number = normalizePhone "+15551234567".data ∧ p.id = maxId [] + 1 :=
  id_assignment ["+15550000001"] "+15551234567" "t" "+15551234567".data
    (ProviderResult.ok "CA1") [] (by rfl) (by decide) (by decide)

/-! ### Concurrent ingestion: claim C4 -/

/-- No two records of the store share a `number`. -/
def NodupNumbers (store : Store) : Prop :=
  (store.map (fun p => p.number)).Nodup

/-- One in-flight `upload_numbers` request.  The handler loads the whole
JSON file into a local snapshot, builds its new list against that snapshot,
and saves the whole list back; the `await file.read()` between load and
save lets other handlers run in between. -/
structure IngCall where
  numbers : List String
  stamp : String
  snapshot : Option Store
  done : Bool
deriving Repr, DecidableEq

/-- The shared state: the persisted store plus the in-flight requests. -/
structure SysState where
  store : Store
  calls : List IngCall
deriving Repr, DecidableEq

/-- The two atomic phases of one `upload_numbers` handler: `load i` reads
the file into call `i`'s snapshot, `save i` writes call `i`'s computed
list (its snapshot run through the upload loop) over the whole file. -/
inductive IngEvent where
  | load (i : Nat)
  | save (i : Nat)
deriving Repr, DecidableEq

/-- Interleaving semantics: an event fires if its call is in the right
phase, otherwise it is a no-op. -/
def ingStep (s : SysState) (e : IngEvent) : SysState :=
  match e with
  | .load i =>
    match s.calls[i]? with
    | some c =>
      if c.snapshot = none ∧ c.done = false then
        { s with calls := s.calls.set i { c with snapshot := some s.store } }
      else s
    | none => s
  | .save i =>
    match s.calls[i]? with
    | some c =>
      match c.snapshot with
      | some snap =>
        if c.done = false then
          { store := (ingest c.numbers c.stamp snap).1,
            calls := s.calls.set i { c with done := true } }
        else s
      | none => s
    | none => s

/-- Run a schedule of interleaved events. -/
def ingRun (s : SysState) (evs : List IngEvent) : SysState :=
  evs.foldl ingStep s

/-- Initial state: the persisted store plus one not-yet-started call per
`(numbers, timestamp)` pair. -/
def ingInit (store : Store) (specs : List (List String × String)) : SysState :=
  { store := store,
    calls := specs.map (fun pr => ⟨pr.1, pr.2, none, false⟩) }

/-- Invariant: the store and every taken snapshot have pairwise-distinct
numbers. -/
def SysInv (s : SysState) : Prop :=
  NodupNumbers s.store ∧
  ∀ c ∈ s.calls, ∀ snap, c.snapshot = some snap → NodupNumbers snap

theorem ingStep_inv (s : SysState) (e : IngEvent) (h : SysInv s) :
    SysInv (ingStep s e) := by
  cases e with
  | load i =>
    cases hc : s.calls[i]? with
    | none => simpa [ingStep, hc] using h
    | some c =>
      by_cases hcc : c.snapshot = none ∧ c.done = false
      · have hstep : ingStep s (IngEvent.load i) =
            { s with calls := s.calls.set i { c with snapshot := some s.store } } := by
          simp [ingStep, hc, hcc]
        rw [hstep]
        refine ⟨h.1, ?_⟩
        intro c' hc' snap hsnap
        rcases List.mem_or_eq_of_mem_set hc' with hmem | hmem
        · exact h.2 c' hmem snap hsnap
        · have heq : some s.store = some snap := by
            rw [← hsnap, hmem]
          rw [← Option.some_inj.mp heq]
          exact h.1
      · simpa [ingStep, hc, hcc] using h
  | save i =>
    cases hc : s.calls[i]? with
    | none => simpa [ingStep, hc] using h
    | some c =>
      cases hsn : c.snapshot with
      | none => simpa [ingStep, hc, hsn] using h
      | some snap =>
        by_cases hd : c.done = false
        · have hcmem : c ∈ s.calls := by
            have := hc
            rw [← List.get?_eq_getElem?] at this
            exact List.mem_iff_get?.mpr ⟨i, this⟩
          have hsnap : NodupNumbers snap := h.2 c hcmem snap hsn
          have hstep : ingStep s (IngEvent.save i) =
              { store := (ingest c.numbers c.stamp snap).1,
                calls := s.calls.set i { c with done := true } } := by
            simp [ingStep, hc, hsn, hd]
          rw [hstep]
          refine ⟨uploadLoop_nodup c.stamp c.numbers snap 0 hsnap, ?_⟩
          intro c' hc' sn hsn'
          rcases List.mem_or_eq_of_mem_set hc' with hmem | hmem
          · exact h.2 c' hmem sn hsn'
          · apply h.2 c hcmem sn
            rw [← hsn', hmem]
        · simpa [ingStep, hc, hsn, hd] using h

theorem ingRun_inv (evs : List IngEvent) :
    ∀ s : SysState, SysInv s → SysInv (ingRun s evs) := by
  induction evs with
  | nil => exact fun _ h => h
  | cons e rest ih => exact fun s h => ih (ingStep s e) (ingStep_inv s e h)

/-- C4 (amended): every interleaving of concurrent `upload_numbers` calls
— each a load of the whole file followed, possibly after other handlers
have run, by a whole-file save of its locally deduplicated list — keeps
the store free of duplicate numbers, because each save writes one
handler's list, deduplicated against its own snapshot.  (The parenthetical
of the original claim fails: the check-and-insert is not as if under
mutual exclusion — the counterexample exhibits a lost update.) -/
theorem concurrentIngest_no_duplicate_numbers (store : Store)
    (specs : List (List String × String)) (evs : List IngEvent)
    (h : NodupNumbers store) :
    NodupNumbers (ingRun (ingInit store specs) evs).store := by
  refine (ingRun_inv evs (ingInit store specs) ⟨h, ?_⟩).1
  intro c hc snap hsnap
  obtain ⟨pr, _, hpr⟩ := List.mem_map.mp hc
  rw [← hpr] at hsnap
  simp at hsnap

/-- Witness for the amended C4: the racy schedule on two one-number
uploads still yields a duplicate-free store. -/
theorem concurrentIngest_no_duplicate_numbers_witness :
    NodupNumbers (ingRun (ingInit []
      [(["111111111"], "t"), (["222222222"], "t")])
      [IngEvent.load 0, IngEvent.load 1, IngEvent.save 0, IngEvent.save 1]).store :=
  concurrentIngest_no_duplicate_numbers []
    [(["111111111"], "t"), (["222222222"], "t")]
    [IngEvent.load 0, IngEvent.load 1, IngEvent.save 0, IngEvent.save 1]
    List.Pairwise.nil

/-- C4 counterexample (lost update): with two concurrent uploads that both
load the empty file before either saves, the final store holds only the
second call's number — `111111111` is lost — whereas either serial order
ends with both numbers.  So concurrent ingestion does not behave as if the
check and insert ran under mutual exclusion. -/
theorem concurrentIngest_counterexample :
    ((ingRun (ingInit [] [(["111111111"], "t"), (["222222222"], "t")])
        [IngEvent.load 0, IngEvent.load 1, IngEvent.save 0, IngEvent.save 1]).store.map
      (fun p => p.number) = ["222222222"]) ∧
    ((ingRun (ingInit [] [(["111111111"], "t"), (["222222222"], "t")])
        [IngEvent.load 0, IngEvent.save 0, IngEvent.load 1, IngEvent.save 1]).store.map
      (fun p => p.number) = ["111111111", "222222222"]) ∧
    ((ingRun (ingInit [] [(["111111111"], "t"), (["222222222"], "t")])
        [IngEvent.load 1, IngEvent.save 1, IngEvent.load 0, IngEvent.save 0]).store.map
      (fun p => p.number) = ["222222222", "111111111"]) := by
  decide
